import Mathlib

/-!
Verification of the pymeasure instrument drivers (Agilent34970A, Keithley2182,
HP3458A) against their natural-language specification.  The drivers translate
property reads/writes into ASCII commands sent through an adapter; we embed the
command formatting, reply parsing, and measurement sequencing as executable
Lean functions and prove the specified properties about them.

Python integers printed with `str` and parsed with `int` are modelled by
`natChars` / `intChars` and `parseNat?` / `parseInt?`; Python `float(...)` on a
decimal string is modelled exactly over `ℚ`.  Adapter interactions are traces
of `Action` values (write / ask / sized binary read).
-/

namespace PyMeasure

/-- Value of a decimal digit character, `none` for a non-digit. -/
def digitVal? (c : Char) : Option Nat :=
  if ('0' ≤ c ∧ c ≤ '9') then some (c.toNat - Char.toNat '0') else none

/-- Decimal digits of `n`, most significant first, driven by fuel
(`fuel ≥ n` suffices).  Models the digit loop of Python `str(int)`. -/
def natCharsAux : Nat → Nat → List Char
  | 0, _ => []
  | fuel + 1, n =>
    if n = 0 then [] else natCharsAux fuel (n / 10) ++ [Nat.digitChar (n % 10)]

/-- Decimal representation of a natural number, as Python `str` produces it. -/
def natChars (n : Nat) : List Char :=
  if n = 0 then ['0'] else natCharsAux n n

/-- Decimal representation of an integer, as Python `str` produces it. -/
def intChars (i : Int) : List Char :=
  if i < 0 then '-' :: natChars i.natAbs else natChars i.natAbs

/-- Accumulating decimal parser: the left fold Python `int` performs. -/
def parseNatAux : List Char → Nat → Option Nat
  | [], acc => some acc
  | c :: rest, acc =>
    match digitVal? c with
    | none => none
    | some d => parseNatAux rest (10 * acc + d)

/-- Parse a non-empty all-digit string as a natural number (Python `int`). -/
def parseNat? (cs : List Char) : Option Nat :=
  if cs.isEmpty then none else parseNatAux cs 0

/-- Parse an optionally `-`-signed decimal string as an integer (Python `int`). -/
def parseInt? (cs : List Char) : Option Int :=
  match cs with
  | [] => none
  | c :: rest =>
    if c = '-' then (parseNat? rest).map (fun n => -(n : Int))
    else (parseNat? (c :: rest)).map (fun n => (n : Int))

/-- The ten decimal digit characters. -/
def decimalDigits : List Char :=
  ['0', '1', '2', '3', '4', '5', '6', '7', '8', '9']

theorem digitChar_mem_decimalDigits {d : Nat} (hd : d < 10) :
    Nat.digitChar d ∈ decimalDigits := by
  interval_cases d <;> decide

theorem digitVal?_digitChar {d : Nat} (hd : d < 10) :
    digitVal? (Nat.digitChar d) = some d := by
  interval_cases d <;> decide

theorem mem_natCharsAux {fuel n : Nat} {c : Char} (h : c ∈ natCharsAux fuel n) :
    c ∈ decimalDigits := by
  induction fuel generalizing n with
  | zero => simp [natCharsAux] at h
  | succ fuel ih =>
    rw [natCharsAux] at h
    by_cases hn : n = 0
    · simp [hn] at h
    · rw [if_neg hn, List.mem_append] at h
      rcases h with h | h
      · exact ih h
      · simp only [List.mem_singleton] at h
        subst h
        exact digitChar_mem_decimalDigits (Nat.mod_lt _ (by omega))

theorem mem_natChars {n : Nat} {c : Char} (h : c ∈ natChars n) :
    c ∈ decimalDigits := by
  rw [natChars] at h
  by_cases hn : n = 0
  · rw [if_pos hn] at h; simp only [List.mem_singleton] at h; subst h; decide
  · exact mem_natCharsAux (by rwa [if_neg hn] at h)

theorem mem_intChars {i : Int} {c : Char} (h : c ∈ intChars i) :
    c = '-' ∨ c ∈ decimalDigits := by
  rw [intChars] at h
  by_cases hi : i < 0
  · rw [if_pos hi] at h
    rcases List.mem_cons.mp h with h | h
    · exact Or.inl h
    · exact Or.inr (mem_natChars h)
  · exact Or.inr (mem_natChars (by rwa [if_neg hi] at h))

theorem natCharsAux_ne_nil {fuel n : Nat} (hn : n ≠ 0) (hf : fuel ≠ 0) :
    natCharsAux fuel n ≠ [] := by
  cases fuel with
  | zero => exact absurd rfl hf
  | succ fuel =>
    rw [natCharsAux, if_neg hn]
    exact fun h => by simpa using List.append_ne_nil_of_right_ne_nil _ (by simp) h

theorem parseNatAux_append (xs ys : List Char) (a : Nat) :
    parseNatAux (xs ++ ys) a =
      match parseNatAux xs a with
      | none => none
      | some b => parseNatAux ys b := by
  induction xs generalizing a with
  | nil => simp [parseNatAux]
  | cons c rest ih =>
    simp only [List.cons_append, parseNatAux]
    cases digitVal? c with
    | none => rfl
    | some d => exact ih _

theorem parseNatAux_natCharsAux {fuel n : Nat} (h : n ≤ fuel) (a : Nat) :
    ∃ k, parseNatAux (natCharsAux fuel n) a = some (a * 10 ^ k + n) := by
  induction fuel generalizing n a with
  | zero =>
    refine ⟨0, ?_⟩
    interval_cases n
    simp [natCharsAux, parseNatAux]
  | succ fuel ih =>
    by_cases hn : n = 0
    · subst hn
      exact ⟨0, by simp [natCharsAux, parseNatAux]⟩
    · have hdiv : n / 10 ≤ fuel := by
        have h2 : n / 10 < n := Nat.div_lt_self (Nat.pos_of_ne_zero hn) (by norm_num)
        omega
      obtain ⟨k, hk⟩ := ih hdiv a
      refine ⟨k + 1, ?_⟩
      rw [natCharsAux, if_neg hn, parseNatAux_append, hk]
      have hmod : n % 10 < 10 := Nat.mod_lt _ (by omega)
      simp only [parseNatAux, digitVal?_digitChar hmod]
      have : 10 * (a * 10 ^ k + n / 10) + n % 10 = a * 10 ^ (k + 1) + n := by
        have := Nat.div_add_mod n 10
        ring_nf
        omega
      rw [this]

theorem parseNat?_natChars (n : Nat) : parseNat? (natChars n) = some n := by
  by_cases hn : n = 0
  · subst hn; decide
  · have hne : natChars n ≠ [] := by
      rw [natChars, if_neg hn]
      exact natCharsAux_ne_nil hn hn
    rw [parseNat?, if_neg (by simpa [List.isEmpty_iff] using hne), natChars, if_neg hn]
    obtain ⟨k, hk⟩ := parseNatAux_natCharsAux (Nat.le_refl n) 0
    rw [hk]
    simp

theorem natChars_head_digit (n : Nat) :
    ∀ c rest, natChars n = c :: rest → c ∈ decimalDigits := by
  intro c rest h
  exact mem_natChars (h ▸ List.mem_cons_self c rest)

theorem parseInt?_intChars (i : Int) : parseInt? (intChars i) = some i := by
  by_cases hi : i < 0
  · rw [intChars, if_pos hi]
    simp only [parseInt?, if_pos rfl, parseNat?_natChars]
    show some (-(i.natAbs : Int)) = some i
    congr 1
    omega
  · rw [intChars, if_neg hi]
    rcases hcs : natChars i.natAbs with _ | ⟨c, rest⟩
    · exact absurd hcs (by
        rw [natChars]
        by_cases h0 : i.natAbs = 0
        · simp [h0]
        · rw [if_neg h0]; exact natCharsAux_ne_nil h0 h0)
    · have hc : c ∈ decimalDigits := natChars_head_digit _ _ _ hcs
      have hcne : c ≠ '-' := by
        intro h; subst h; simp [decimalDigits] at hc
      rw [parseInt?, if_neg hcne, ← hcs, parseNat?_natChars]
      show some ((i.natAbs : Int)) = some i
      congr 1
      omega

/-- Python `str(i)` for an integer. -/
def intStr (i : Int) : String := ⟨intChars i⟩

/-- Modelled from the spec: the adapter contract (section 6) offers
`write(command)`, `ask(command) -> reply` and a raw sized read; the
`Instrument` base class providing them is not part of the four driver
source files.  A driver call is modelled as the trace of adapter
interactions it performs.  `readBin size encoding` records the driver
requesting `size` bytes (`-1` = read until terminator) to be decoded
with scheme `encoding`. -/
inductive Action where
  | write (cmd : String)
  | ask (cmd : String)
  | readBin (size : Int) (encoding : String)
deriving DecidableEq

/-- Strip leading and trailing whitespace, as Python `float(...)` does. -/
def stripWs (cs : List Char) : List Char :=
  ((cs.dropWhile Char.isWhitespace).reverse.dropWhile Char.isWhitespace).reverse

/-- Unsigned mantissa of a Python float literal: digits with an optional
decimal point, valued exactly in `ℚ`. -/
def parseUFrac (cs : List Char) : Option ℚ :=
  match cs.splitOn '.' with
  | [w] => (parseNat? w).map (fun n => (n : ℚ))
  | [w, f] =>
    if w.isEmpty && f.isEmpty then none
    else
      match (if w.isEmpty then some 0 else parseNat? w),
            (if f.isEmpty then some 0 else parseNat? f) with
      | some wn, some fn => some ((wn : ℚ) + (fn : ℚ) / (10 : ℚ) ^ f.length)
      | _, _ => none
  | _ => none

/-- Exponent part of a Python float literal (optional sign). -/
def parseExp? (cs : List Char) : Option Int :=
  match cs with
  | '+' :: rest => (parseNat? rest).map (fun n => (n : Int))
  | _ => parseInt? cs

/-- Scale a rational by a power of ten. -/
def applyExp (q : ℚ) (e : Int) : ℚ :=
  if 0 ≤ e then q * (10 : ℚ) ^ e.toNat else q / (10 : ℚ) ^ (-e).toNat

/-- Mantissa and optional exponent of a Python float literal. -/
def parseFloatSigned (cs : List Char) : Option ℚ :=
  match cs.splitOnP (fun c => c == 'e' || c == 'E') with
  | [mant] => parseUFrac mant
  | [mant, ex] =>
    match parseUFrac mant, parseExp? ex with
    | some m, some e => some (applyExp m e)
    | _, _ => none
  | _ => none

/-- Python `float(...)` on a decimal string, modelled exactly over `ℚ`. -/
def parseFloatChars (cs : List Char) : Option ℚ :=
  match stripWs cs with
  | '-' :: rest => (parseFloatSigned rest).map (fun q => -q)
  | '+' :: rest => parseFloatSigned rest
  | cs2 => parseFloatSigned cs2

/-- Python `float(...)` on a string. -/
def parseFloat? (s : String) : Option ℚ := parseFloatChars s.data

/-- `[float(x) for x in parts]`: all parts must parse. -/
def parseFloatList (parts : List (List Char)) : Option (List ℚ) :=
  match parts with
  | [] => some []
  | p :: rest =>
    match parseFloatChars p, parseFloatList rest with
    | some q, some qs => some (q :: qs)
    | _, _ => none

/-- `[int(x) for x in parts]`: all parts must parse. -/
def parseIntList (parts : List (List Char)) : Option (List Int) :=
  match parts with
  | [] => some []
  | p :: rest =>
    match parseInt? p, parseIntList rest with
    | some i, some is => some (i :: is)
    | _, _ => none

/-! ## Agilent34970A -/

/-- `Agilent34970A.Mode`: measurement functions of the DAQ. -/
inductive AMode where
  | current_ac
  | current_dc
  | frequency
  | fourpt_resistance
  | period
  | resistance
  | temperature
  | voltage_ac
  | voltage_dc
deriving DecidableEq

/-- Wire token of each `Agilent34970A.Mode` member. -/
def AMode.value : AMode → String
  | .current_ac => "CURRent:AC"
  | .current_dc => "CURRent:DC"
  | .frequency => "FREQuency"
  | .fourpt_resistance => "FRESistance"
  | .period => "PERiod"
  | .resistance => "RESistance"
  | .temperature => "TEMPerature"
  | .voltage_ac => "VOLTage:AC"
  | .voltage_dc => "VOLTage:DC"

/-- `Agilent34970A.Configuration`: constructor stores a mode and a channel
list in private fields. -/
structure AConfiguration where
  mode : AMode
  channel_list : List Int

/-- Python `','.join(str(x) for x in xs)`. -/
def joinComma (xs : List Int) : List Char := List.intercalate [','] (xs.map intChars)

/-- The `Configuration.mode` property body: `self.__mode.value`. -/
def AConfiguration.modeStr (c : AConfiguration) : String := c.mode.value

/-- The `Configuration.channel_list` property body: the comma-joined string. -/
def AConfiguration.channelListStr (c : AConfiguration) : String := ⟨joinComma c.channel_list⟩

/-- Dynamic (Python) values observable from a `Configuration` accessor. -/
inductive ObsVal where
  | str (s : String)
  | intList (xs : List Int)
  | aMode (m : AMode)
deriving DecidableEq

/-- What reading `Configuration.mode` yields, as a dynamic value. -/
def AConfiguration.modeAcc (c : AConfiguration) : ObsVal := ObsVal.str c.modeStr

/-- What reading `Configuration.channel_list` yields, as a dynamic value. -/
def AConfiguration.channelListAcc (c : AConfiguration) : ObsVal := ObsVal.str c.channelListStr

/-- Assigning `Configuration.mode` raises `AttributeError` (the property has
no setter), so no updated object is ever produced. -/
def AConfiguration.setMode (_c : AConfiguration) (_v : AMode) : Option AConfiguration := none

/-- Assigning `Configuration.channel_list` raises `AttributeError` (the
property has no setter). -/
def AConfiguration.setChannelList (_c : AConfiguration) (_v : List Int) :
    Option AConfiguration := none

/-- The `Agilent34970A.mode` setter: one formatted `CONF` write. -/
def agilentModeSet (config : AConfiguration) : List Action :=
  [Action.write ("CONF:" ++ config.modeStr ++ " (@" ++ config.channelListStr ++ ")")]

/-- Possible values of the `config` argument of `Agilent34970A.measure`:
`None`, a proper `Configuration`, or a truthy non-`Configuration` value
(exemplified by a bare `Mode` member). -/
inductive AConfigArg where
  | noneArg
  | conf (c : AConfiguration)
  | modeVal (m : AMode)

/-- `Agilent34970A.measure`: optionally configure, `INITiate`, wait, then
`FETCh?` and parse `results[:-1].split(',')` as floats. -/
def agilentMeasure (config : AConfigArg) (_toWait : ℚ) (fetchReply : String) :
    List Action × Option (List ℚ) :=
  let confActs := match config with
    | AConfigArg.conf c => agilentModeSet c
    | _ => []
  (confActs ++ [Action.write ("INITiate"), Action.ask ("FETCh?")],
    parseFloatList ((fetchReply.data.dropLast).splitOn ','))

/-- The regex step of the `channels` getter: `re.search(r'@(.*)\)', response)`
finds the first `@` with a `)` somewhere after it and greedily captures up to
the last `)`. -/
def extractScan (cs : List Char) : Option (List Char) :=
  match cs.dropWhile (fun c => c != '@') with
  | [] => none
  | _ :: rest =>
    match rest.reverse.dropWhile (fun c => c != ')') with
    | [] => none
    | _ :: revContent => some revContent.reverse

/-- The `Agilent34970A.channels` getter applied to the `ROUT:SCAN?` reply:
regex capture, split on commas, `int` each part. -/
def agilentChannelsGet (reply : String) : Option (List Int) :=
  match extractScan reply.data with
  | none => none
  | some content => parseIntList (content.splitOn ',')

/-- One `SYSTem:ERRor?` reply parsed as the loop body does:
`int(s.split(',')[0])` and `s.split('"')[1]`. -/
def parseErrLine (s : String) : Option (Int × String) :=
  match parseInt? ((s.data.splitOn ',').headD []) with
  | none => none
  | some code =>
    match (s.data.splitOn '"').get? 1 with
    | none => none
    | some msg => some (code, ⟨msg⟩)

/-- Python `dict` assignment `d[k] = v`: overwrite in place if the key
exists, else append. -/
def dictInsert (d : List (Int × String)) (k : Int) (v : String) : List (Int × String) :=
  if d.any (fun p => p.1 == k) then d.map (fun p => if p.1 == k then (k, v) else p)
  else d ++ [(k, v)]

/-- The `check_errors` loop body over the remaining fuel of the
`for i in range(12)` loop; each iteration asks `SYSTem:ERRor?` and consumes
the next queued reply. -/
def checkErrorsLoop : Nat → List (Int × String) → List String →
    List Action × Option (List (Int × String))
  | 0, dict, _ => ([], some dict)
  | fuel + 1, dict, replies =>
    match parseErrLine (replies.headD ("")) with
    | none => ([Action.ask ("SYSTem:ERRor?")], none)
    | some (code, msg) =>
      if code = 0 then ([Action.ask ("SYSTem:ERRor?")], some dict)
      else
        let r := checkErrorsLoop fuel (dictInsert dict code msg) replies.tail
        (Action.ask ("SYSTem:ERRor?") :: r.1, r.2)

/-- `check_errors` (identical bodies in `Agilent34970A` and `Keithley2182`):
drain the error queue, at most 12 polls. -/
def checkErrors (replies : List String) : List Action × Option (List (Int × String)) :=
  checkErrorsLoop 12 [] replies

/-- `Agilent34970A.check_errors`. -/
def agilentCheckErrors (replies : List String) : List Action × Option (List (Int × String)) :=
  checkErrors replies

/-- `Keithley2182.check_errors` (verbatim copy of the Agilent one). -/
def keithleyCheckErrors (replies : List String) : List Action × Option (List (Int × String)) :=
  checkErrors replies

/-- A simulated error queue: formatted non-zero-code replies followed by the
no-error reply. -/
def fmtErrReply (code : Int) (msg : String) : String :=
  intStr code ++ ",\"" ++ msg ++ "\""

/-- Queue of `errs` followed by `0,"No error"`. -/
def mkErrQueue (errs : List (Int × String)) : List String :=
  errs.map (fun e => fmtErrReply e.1 e.2) ++ [("0,\"No error\"")]

/-! ## Keithley2182 -/

/-- `Keithley2182.Mode`: the wire values embed single quotes, e.g. `'VOLT'`. -/
inductive KMode where
  | voltage
  | temperature
deriving DecidableEq

/-- Wire value of each `Keithley2182.Mode` member (quotes included). -/
def KMode.value : KMode → String
  | .voltage => "\x27VOLT\x27"
  | .temperature => "\x27TEMP\x27"

/-- All `Keithley2182.Mode` members. -/
def KMode.members : List KMode := [KMode.voltage, KMode.temperature]

/-- Python `Mode(s)`: value lookup among the members, `ValueError` if absent. -/
def KMode.ofStr (s : String) : Option KMode :=
  KMode.members.find? (fun m => m.value == s)

/-- `Keithley2182.Channel`. -/
inductive KChannel where
  | internal_temp
  | dcv_1
  | dcv_2
deriving DecidableEq

/-- Wire value of each `Keithley2182.Channel` member. -/
def KChannel.value : KChannel → Int
  | .internal_temp => 0
  | .dcv_1 => 1
  | .dcv_2 => 2

/-- All `Keithley2182.Channel` members. -/
def KChannel.members : List KChannel := [KChannel.internal_temp, KChannel.dcv_1, KChannel.dcv_2]

/-- Python `Channel(n)`: value lookup among the members, `ValueError` if absent. -/
def KChannel.ofInt (n : Int) : Option KChannel :=
  KChannel.members.find? (fun c => c.value == n)

/-- `Keithley2182.Configuration`: stores a mode and a channel. -/
structure KConfiguration where
  mode : KMode
  channel : KChannel

/-- The `Configuration.mode` property body: returns the stored mode itself. -/
def KConfiguration.modeAcc (c : KConfiguration) : KMode := c.mode

/-- The `Configuration.channel` property body: returns the stored channel. -/
def KConfiguration.channelAcc (c : KConfiguration) : KChannel := c.channel

/-- The `Configuration.mode` setter raises `NotImplementedError`. -/
def KConfiguration.setMode (_c : KConfiguration) (_v : KMode) : Option KConfiguration := none

/-- The `Configuration.channel` setter raises `NotImplementedError`. -/
def KConfiguration.setChannel (_c : KConfiguration) (_v : KChannel) :
    Option KConfiguration := none

/-- The `Keithley2182.mode` setter: `SENS:FUNC <value>`. -/
def keithleyModeSet (m : KMode) : List Action :=
  [Action.write ("SENS:FUNC " ++ m.value)]

/-- The `Keithley2182.channel` setter: `SENSe:CHAN <str(value)>`. -/
def keithleyChannelSet (c : KChannel) : List Action :=
  [Action.write ("SENSe:CHAN " ++ intStr c.value)]

/-- Setting the channel from a raw integer: the `Channel(n)` construction
happens first and raises on an undefined value, before any write. -/
def keithleyChannelSetRaw (n : Int) : Option (List Action) :=
  (KChannel.ofInt n).map keithleyChannelSet

/-- The `Keithley2182.configuration` setter: mode write then channel write. -/
def keithleyConfigurationSet (c : KConfiguration) : List Action :=
  keithleyModeSet c.mode ++ keithleyChannelSet c.channel

/-- Python slice `cs[a:b]`. -/
def pySlice (cs : List Char) (a b : Nat) : List Char := (cs.drop a).take (b - a)

/-- The `Keithley2182.mode` getter body: `Mode(reply[1:5])`. -/
def keithleyModeGet (reply : String) : Option KMode :=
  KMode.ofStr ⟨pySlice reply.data 1 5⟩

/-- Set-then-get round trip against an instrument echoing the last value
written for the setting. -/
def keithleyModeEchoRoundTrip (m : KMode) : Option KMode :=
  keithleyModeGet m.value

/-- The `Keithley2182.channel` getter body: `Channel(int(reply))`. -/
def keithleyChannelGet (reply : String) : Option KChannel :=
  match parseInt? reply.data with
  | none => none
  | some n => KChannel.ofInt n

/-- Possible values of the `config` argument of `Keithley2182.measure`. -/
inductive KConfigArg where
  | noneArg
  | conf (c : KConfiguration)
  | modeVal (m : KMode)

/-- `Keithley2182.measure`: optionally configure, wait, then
`float(self.fetch())` — note there is no initiate step in the source. -/
def keithleyMeasure (config : KConfigArg) (_toWait : ℚ) (fetchReply : String) :
    List Action × Option ℚ :=
  let confActs := match config with
    | KConfigArg.conf c => keithleyConfigurationSet c
    | _ => []
  (confActs ++ [Action.ask ("FETCh?")], parseFloat? fetchReply)

/-! ## HP3458A -/

/-- `HP3458A.Mode`. -/
inductive HPMode where
  | current_ac
  | current_dc
  | current_acdc
  | voltage_ac
  | voltage_dc
  | voltage_acdc
  | frequency
  | period
  | fourpt_resistance
  | resistance
  | direct_sampling_ac
  | direct_sampling_dc
  | sub_sampling_ac
  | sub_sampling_dc
deriving DecidableEq

/-- Wire value of each `HP3458A.Mode` member. -/
def HPMode.value : HPMode → Int
  | .current_ac => 7
  | .current_dc => 6
  | .current_acdc => 8
  | .voltage_ac => 2
  | .voltage_dc => 1
  | .voltage_acdc => 3
  | .frequency => 9
  | .period => 10
  | .fourpt_resistance => 5
  | .resistance => 4
  | .direct_sampling_ac => 11
  | .direct_sampling_dc => 12
  | .sub_sampling_ac => 13
  | .sub_sampling_dc => 14

/-- All `HP3458A.Mode` members. -/
def HPMode.members : List HPMode :=
  [HPMode.current_ac, HPMode.current_dc, HPMode.current_acdc, HPMode.voltage_ac,
   HPMode.voltage_dc, HPMode.voltage_acdc, HPMode.frequency, HPMode.period,
   HPMode.fourpt_resistance, HPMode.resistance, HPMode.direct_sampling_ac,
   HPMode.direct_sampling_dc, HPMode.sub_sampling_ac, HPMode.sub_sampling_dc]

/-- Python `Mode(n)`: value lookup, `ValueError` if absent. -/
def HPMode.ofInt (n : Int) : Option HPMode :=
  HPMode.members.find? (fun m => m.value == n)

/-- `HP3458A.TriggerMode`. -/
inductive HPTrigger where
  | auto
  | external
  | syn
  | single
  | hold
  | level
  | line
deriving DecidableEq

/-- Wire value of each `HP3458A.TriggerMode` member. -/
def HPTrigger.value : HPTrigger → Int
  | .auto => 1
  | .external => 2
  | .syn => 5
  | .single => 3
  | .hold => 4
  | .level => 7
  | .line => 8

/-- All `HP3458A.TriggerMode` members. -/
def HPTrigger.members : List HPTrigger :=
  [HPTrigger.auto, HPTrigger.external, HPTrigger.syn, HPTrigger.single,
   HPTrigger.hold, HPTrigger.level, HPTrigger.line]

/-- Python `TriggerMode(n)`: value lookup, `ValueError` if absent. -/
def HPTrigger.ofInt (n : Int) : Option HPTrigger :=
  HPTrigger.members.find? (fun t => t.value == n)

/-- `HP3458A.FormatMode`. -/
inductive HPFormatMode where
  | ascii
  | sint
  | dint
  | sreal
  | dreal
deriving DecidableEq

/-- Wire value of each `HP3458A.FormatMode` member. -/
def HPFormatMode.value : HPFormatMode → Int
  | .ascii => 1
  | .sint => 2
  | .dint => 3
  | .sreal => 4
  | .dreal => 5

/-- All `HP3458A.FormatMode` members. -/
def HPFormatMode.members : List HPFormatMode :=
  [HPFormatMode.ascii, HPFormatMode.sint, HPFormatMode.dint, HPFormatMode.sreal,
   HPFormatMode.dreal]

/-- Python `FormatMode(n)`: value lookup, `ValueError` if absent. -/
def HPFormatMode.ofInt (n : Int) : Option HPFormatMode :=
  HPFormatMode.members.find? (fun f => f.value == n)

/-- The module-level `FORMAT_CONFIG` table: byte count (`-1` meaning read
until terminator) and decode scheme tag per output format. -/
def FORMAT_CONFIG : HPFormatMode → Int × String
  | .ascii => (-1, "utf-8")
  | .sint => (2, "SI/16")
  | .dint => (4, "DI/32")
  | .sreal => (4, "IEEE-754/32")
  | .dreal => (8, "IEEE-754/64")

/-- The `HP3458A.mode` getter body: `Mode(int(reply.split(',')[0]))`. -/
def hpModeGet (reply : String) : Option HPMode :=
  match parseInt? ((reply.data.splitOn ',').headD []) with
  | none => none
  | some n => HPMode.ofInt n

/-- The `HP3458A.trigger_arm` getter body: `TriggerMode(int(reply))`. -/
def hpTriggerArmGet (reply : String) : Option HPTrigger :=
  match parseInt? reply.data with
  | none => none
  | some n => HPTrigger.ofInt n

/-- The `HP3458A.oformat` getter body: `FormatMode(int(reply))`. -/
def hpOformatGet (reply : String) : Option HPFormatMode :=
  match parseInt? reply.data with
  | none => none
  | some n => HPFormatMode.ofInt n

/-- The `HP3458A.mode` setter: `FUNC <value>`. -/
def hpModeSet (m : HPMode) : List Action :=
  [Action.write ("FUNC " ++ intStr m.value)]

/-- `HP3458A.measure`: optionally set the mode; when no `read_config` is
supplied look it up in `FORMAT_CONFIG` keyed by the queried `oformat`; then
`TRIG <trigger_mode>` and a sized read.  The decode itself lives in the
adapter; the requested size and scheme tag are recorded in the trace. -/
def hpMeasure (modeArg : Option HPMode) (readConfig : Option (Int × String))
    (trigType : HPTrigger) (oformatReply : String) (readPayload : String) :
    List Action × Option String :=
  let modeActs := match modeArg with
    | some m => hpModeSet m
    | none => []
  match readConfig with
  | some rc =>
    (modeActs ++ [Action.write ("TRIG " ++ intStr trigType.value), Action.readBin rc.1 rc.2],
      some readPayload)
  | none =>
    match hpOformatGet oformatReply with
    | none => (modeActs ++ [Action.ask ("OFORMAT?")], none)
    | some fm =>
      (modeActs ++ [Action.ask ("OFORMAT?"),
        Action.write ("TRIG " ++ intStr trigType.value),
        Action.readBin (FORMAT_CONFIG fm).1 (FORMAT_CONFIG fm).2],
        some readPayload)

/-! ## Shared lemmas about enum value lookup and numeral strings -/

theorem find?_value_eq_none_iff {α : Type} (members : List α) (value : α → Int)
    (hcomplete : ∀ a : α, a ∈ members) (n : Int) :
    members.find? (fun a => value a == n) = none ↔ ∀ a : α, value a ≠ n := by
  rw [List.find?_eq_none]
  constructor
  · intro h a
    have := h a (hcomplete a)
    simpa using this
  · intro h a _
    simp [h a]

theorem comma_not_mem_intChars (i : Int) : ∀ c ∈ intChars i, ¬((c == ',') = true) := by
  intro c hc
  rcases mem_intChars hc with h | h
  · subst h; decide
  · fin_cases h <;> decide

theorem splitOn_comma_intChars (i : Int) : (intChars i).splitOn ',' = [intChars i] := by
  rw [List.splitOn]
  exact List.splitOnP_eq_single _ _ (comma_not_mem_intChars i)

/-! ## Claim theorems -/

/-- C1: `Agilent34970A.measure` with a `Configuration` of mode `voltage_dc`
and channels `[103, 105]` writes exactly `CONF:VOLTage:DC (@103,105)`, then
`INITiate`, then queries `FETCh?`, and parses the fetch reply
`"1.23,4.56\n"` to the readings `[1.23, 4.56]`. -/
theorem agilent_measure_voltage_dc_exact_commands :
    agilentMeasure (AConfigArg.conf (AConfiguration.mk AMode.voltage_dc [103, 105])) 0
        ("1.23,4.56\n") =
      ([Action.write ("CONF:VOLTage:DC (@103,105)"), Action.write ("INITiate"),
        Action.ask ("FETCh?")], some [123 / 100, 456 / 100]) := by
  with_unfolding_all rfl

/-- C3: the `Keithley2182.mode` getter computes `Mode(reply[1:5])`; the
slice is at most four characters while every `Mode` value is a six-character
quoted token, so the lookup raises `ValueError` for every reply — in
particular for the echo of the last value written (`'VOLT'`), so the
set-then-get round trip can never return the symbolic value that was set. -/
theorem keithley_mode_getter_never_returns :
    keithleyModeGet ("\x27VOLT\x27") = none
      ∧ keithleyModeEchoRoundTrip KMode.voltage = none
      ∧ ∀ reply : String, keithleyModeGet reply = none := by
  refine ⟨by decide, by decide, ?_⟩
  intro reply
  rw [keithleyModeGet, KMode.ofStr]
  refine List.find?_eq_none.mpr ?_
  intro m _
  intro hEq
  have hval : m.value = (⟨pySlice reply.data 1 5⟩ : String) := by
    exact eq_of_beq hEq
  have hlen6 : m.value.data.length = 6 := by cases m <;> decide
  have hlen4 : (pySlice reply.data 1 5).length ≤ 4 := by
    simp only [pySlice, List.length_take]
    omega
  rw [hval] at hlen6
  simp only [] at hlen6
  omega

/-- C4 counterexample: a successful `Keithley2182.measure` call issues no
initiate/trigger command at all — its whole adapter trace is the single
`FETCh?` query — contradicting the claim that every `measure` call on every
driver writes an initiate/trigger command before fetching. -/
theorem keithley_measure_no_initiate_counterexample :
    keithleyMeasure KConfigArg.noneArg 0 ("1.23\n") =
        ([Action.ask ("FETCh?")], some (123 / 100))
      ∧ Action.write ("INITiate") ∉ (keithleyMeasure KConfigArg.noneArg 0 ("1.23\n")).1 :=
  ⟨by with_unfolding_all rfl, by decide⟩

/-- C4 amended: with a supplied configuration, `Agilent34970A.measure`
configures, writes `INITiate`, then fetches and parses a float list;
`HP3458A.measure` sets the mode, writes `TRIG`, then performs the sized
read; but `Keithley2182.measure` only configures and fetches a scalar —
it never writes an initiate/trigger command. -/
theorem measure_sequencing_amended :
    (∀ (c : AConfiguration) (w : ℚ) (r : String),
        agilentMeasure (AConfigArg.conf c) w r =
          ([Action.write ("CONF:" ++ c.modeStr ++ " (@" ++ c.channelListStr ++ ")"),
            Action.write ("INITiate"), Action.ask ("FETCh?")],
            parseFloatList ((r.data.dropLast).splitOn ',')))
      ∧ (∀ (c : KConfiguration) (w : ℚ) (r : String),
          keithleyMeasure (KConfigArg.conf c) w r =
            ([Action.write ("SENS:FUNC " ++ c.mode.value),
              Action.write ("SENSe:CHAN " ++ intStr c.channel.value),
              Action.ask ("FETCh?")], parseFloat? r)
            ∧ Action.write ("INITiate") ∉ (keithleyMeasure (KConfigArg.conf c) w r).1)
      ∧ (∀ (m : HPMode) (rc : Int × String) (trig : HPTrigger) (orp pay : String),
          hpMeasure (some m) (some rc) trig orp pay =
            ([Action.write ("FUNC " ++ intStr m.value),
              Action.write ("TRIG " ++ intStr trig.value), Action.readBin rc.1 rc.2],
              some pay)) := by
  refine ⟨fun c w r => rfl, fun c w r => ⟨rfl, ?_⟩, fun m rc trig orp pay => rfl⟩
  obtain ⟨mo, ch⟩ := c
  show Action.write ("INITiate") ∉
    keithleyConfigurationSet ⟨mo, ch⟩ ++ [Action.ask ("FETCh?")]
  cases mo <;> cases ch <;> decide

/-- C5: constructing `Channel(5)` on the Keithley2182 fails (5 is outside
the defined set `{0, 1, 2}`), so setting the channel from the raw value 5
produces no adapter write at all; in general the raw set fails exactly on
values outside the defined set. -/
theorem keithley_channel_out_of_range :
    keithleyChannelSetRaw 5 = none
      ∧ ∀ n : Int, keithleyChannelSetRaw n = none ↔ (n ≠ 0 ∧ n ≠ 1 ∧ n ≠ 2) := by
  refine ⟨by decide, ?_⟩
  intro n
  have hbase : KChannel.ofInt n = none ↔ ∀ c : KChannel, c.value ≠ n :=
    find?_value_eq_none_iff _ _ (by intro a; cases a <;> decide) n
  rw [keithleyChannelSetRaw, Option.map_eq_none', hbase]
  constructor
  · intro h
    exact ⟨fun h0 => h KChannel.internal_temp h0.symm,
      fun h1 => h KChannel.dcv_1 h1.symm, fun h2 => h KChannel.dcv_2 h2.symm⟩
  · rintro ⟨h0, h1, h2⟩ c
    cases c <;> simpa [KChannel.value] using by omega

/-- C6: for every declared output format, `HP3458A.measure` without an
explicit `read_config` queries `OFORMAT?`, triggers, and requests a read of
exactly the byte count and decode tag of `FORMAT_CONFIG`: 2 bytes tagged
`SI/16` for `sint`, 4 tagged `DI/32` for `dint`, 4 tagged `IEEE-754/32` for
`sreal`, 8 tagged `IEEE-754/64` for `dreal`, and the until-terminator
sentinel `-1` tagged `utf-8` (text) for `ascii`. -/
theorem hp_measure_reads_format_bytes :
    (∀ (fm : HPFormatMode) (trig : HPTrigger) (pay : String),
        hpMeasure none none trig (intStr fm.value) pay =
          ([Action.ask ("OFORMAT?"), Action.write ("TRIG " ++ intStr trig.value),
            Action.readBin (FORMAT_CONFIG fm).1 (FORMAT_CONFIG fm).2], some pay))
      ∧ FORMAT_CONFIG HPFormatMode.sint = (2, "SI/16")
      ∧ FORMAT_CONFIG HPFormatMode.dint = (4, "DI/32")
      ∧ FORMAT_CONFIG HPFormatMode.sreal = (4, "IEEE-754/32")
      ∧ FORMAT_CONFIG HPFormatMode.dreal = (8, "IEEE-754/64")
      ∧ FORMAT_CONFIG HPFormatMode.ascii = (-1, "utf-8") := by
  refine ⟨?_, rfl, rfl, rfl, rfl, rfl⟩
  intro fm trig pay
  cases fm <;> rfl

/-- C8: each enum-reconstructing getter surfaces a lookup failure exactly
when the parsed reply value is not a defined enumeration value, and never
substitutes a default: `HP3458A.mode`, `HP3458A.trigger_arm` and
`Keithley2182.channel` return an error precisely outside the defined value
sets. -/
theorem enum_getters_reject_undefined :
    ∀ n : Int,
      (hpModeGet (intStr n) = none ↔ ∀ m : HPMode, m.value ≠ n)
        ∧ (hpTriggerArmGet (intStr n) = none ↔ ∀ t : HPTrigger, t.value ≠ n)
        ∧ (keithleyChannelGet (intStr n) = none ↔ ∀ c : KChannel, c.value ≠ n) := by
  intro n
  have hdata : (intStr n).data = intChars n := rfl
  refine ⟨?_, ?_, ?_⟩
  · rw [hpModeGet, hdata, splitOn_comma_intChars]
    simp only [List.headD, parseInt?_intChars]
    exact find?_value_eq_none_iff _ _ (by intro a; cases a <;> decide) n
  · rw [hpTriggerArmGet, hdata, parseInt?_intChars]
    exact find?_value_eq_none_iff _ _ (by intro a; cases a <;> decide) n
  · rw [keithleyChannelGet, hdata, parseInt?_intChars]
    exact find?_value_eq_none_iff _ _ (by intro a; cases a <;> decide) n

/-- C9 counterexample: the accessors of `Agilent34970A.Configuration` do not
return the values passed to the constructor: `channel_list` returns the
comma-joined string, not the list `[103, 105]`, and `mode` returns the wire
value string, not the `Mode` member. -/
theorem configuration_accessors_counterexample :
    (AConfiguration.mk AMode.voltage_dc [103, 105]).channelListAcc
        ≠ ObsVal.intList [103, 105]
      ∧ (AConfiguration.mk AMode.voltage_dc [103, 105]).modeAcc
          ≠ ObsVal.aMode AMode.voltage_dc := by
  decide

/-- C9 amended: both `Configuration` classes are immutable — every setter
attempt fails (`AttributeError` for Agilent, `NotImplementedError` for
Keithley) — and the accessors are fixed functions of the constructor
arguments: Keithley returns exactly the stored mode and channel, while
Agilent returns their derived wire strings (the mode token and the
comma-joined channel list). -/
theorem configuration_immutability_amended :
    (∀ (m : AMode) (cl : List Int) (m2 : AMode) (cl2 : List Int),
        (AConfiguration.mk m cl).modeAcc = ObsVal.str m.value
          ∧ (AConfiguration.mk m cl).channelListAcc = ObsVal.str ⟨joinComma cl⟩
          ∧ (AConfiguration.mk m cl).setMode m2 = none
          ∧ (AConfiguration.mk m cl).setChannelList cl2 = none)
      ∧ (∀ (km : KMode) (kc : KChannel) (km2 : KMode) (kc2 : KChannel),
          (KConfiguration.mk km kc).modeAcc = km
            ∧ (KConfiguration.mk km kc).channelAcc = kc
            ∧ (KConfiguration.mk km kc).setMode km2 = none
            ∧ (KConfiguration.mk km kc).setChannel kc2 = none) :=
  ⟨fun _ _ _ _ => ⟨rfl, rfl, rfl, rfl⟩, fun _ _ _ _ => ⟨rfl, rfl, rfl, rfl⟩⟩

/-- C10: a truthy non-`Configuration` argument (here a bare `Mode` member)
passed as `config` to `measure` is silently ignored: the call behaves
exactly like a call without a configuration — no configuration command is
written and no error is raised. -/
theorem measure_ignores_non_configuration :
    (∀ (m : AMode) (w : ℚ) (r : String),
        agilentMeasure (AConfigArg.modeVal m) w r = agilentMeasure AConfigArg.noneArg w r
          ∧ (agilentMeasure (AConfigArg.modeVal m) w r).1 =
              [Action.write ("INITiate"), Action.ask ("FETCh?")])
      ∧ (∀ (km : KMode) (w : ℚ) (r : String),
          keithleyMeasure (KConfigArg.modeVal km) w r = keithleyMeasure KConfigArg.noneArg w r
            ∧ (keithleyMeasure (KConfigArg.modeVal km) w r).1 = [Action.ask ("FETCh?")]) :=
  ⟨fun _ _ _ => ⟨rfl, rfl⟩, fun _ _ _ => ⟨rfl, rfl⟩⟩

theorem extractScan_wellformed (content : List Char) :
    extractScan ('(' :: '@' :: (content ++ [')'])) = some content := by
  rw [extractScan]
  rw [List.dropWhile_cons, if_pos (by decide), List.dropWhile_cons, if_neg (by decide)]
  simp only [List.reverse_append, List.reverse_cons, List.reverse_nil, List.nil_append,
    List.singleton_append]
  rw [List.dropWhile_cons, if_neg (by decide)]
  simp

theorem comma_not_mem_intChars_prop (i : Int) : ',' ∉ intChars i := by
  intro hc
  exact comma_not_mem_intChars i ',' hc (by decide)

theorem parseIntList_map_intChars (cs : List Int) :
    parseIntList (cs.map intChars) = some cs := by
  induction cs with
  | nil => rfl
  | cons i rest ih =>
    simp only [List.map_cons, parseIntList, parseInt?_intChars, ih]

/-- C7: for every reply of the shape `(@c1,c2,...,ck)` with integer channel
numbers, the `Agilent34970A.channels` getter returns exactly the channel
list in reply order. -/
theorem agilent_channels_parse (cs : List Int) (h : cs ≠ []) :
    agilentChannelsGet ⟨'(' :: '@' :: (joinComma cs ++ [')'])⟩ = some cs := by
  rw [agilentChannelsGet,
    show (⟨'(' :: '@' :: (joinComma cs ++ [')'])⟩ : String).data =
      '(' :: '@' :: (joinComma cs ++ [')']) from rfl,
    extractScan_wellformed]
  show parseIntList ((joinComma cs).splitOn ',') = some cs
  rw [joinComma, List.splitOn_intercalate _ ','
    (by
      intro l hl
      obtain ⟨i, _, rfl⟩ := List.mem_map.mp hl
      exact comma_not_mem_intChars_prop i)
    (by simpa using h)]
  exact parseIntList_map_intChars cs

/-- C7 witness: the reply `(@101,102,213)` parses to `[101, 102, 213]`. -/
theorem agilent_channels_parse_witness :
    ([101, 102, 213] : List Int) ≠ []
      ∧ agilentChannelsGet ⟨'(' :: '@' :: (joinComma [101, 102, 213] ++ [')'])⟩ =
          some [101, 102, 213] :=
  ⟨by decide, agilent_channels_parse [101, 102, 213] (by decide)⟩

theorem quoteFree_intChars_comma (i : Int) :
    ∀ x ∈ intChars i ++ [','], ¬((x == '"') = true) := by
  intro x hx
  rcases List.mem_append.mp hx with h | h
  · rcases mem_intChars h with h2 | h2
    · subst h2; decide
    · fin_cases h2 <;> decide
  · simp only [List.mem_singleton] at h
    subst h; decide

theorem parseErrLine_fmt (code : Int) (msg : String) (hq : '"' ∉ msg.data) :
    parseErrLine (fmtErrReply code msg) = some (code, msg) := by
  obtain ⟨l⟩ := msg
  have hdata : (fmtErrReply code ⟨l⟩).data =
      intChars code ++ ',' :: '"' :: (l ++ ['"']) := by
    show (intChars code ++ ([','] ++ ['"'])) ++ l ++ ['"'] =
      intChars code ++ ',' :: '"' :: (l ++ ['"'])
    simp
  have hql : ∀ x ∈ l, ¬((x == '"') = true) := by
    intro x hx hbeq
    exact hq (eq_of_beq hbeq ▸ hx)
  have h1 : (intChars code ++ ',' :: ('"' :: (l ++ ['"']))).splitOn ',' =
      intChars code :: (('"' :: (l ++ ['"'])).splitOn ',') := by
    rw [List.splitOn, List.splitOn]
    exact List.splitOnP_first _ _ (comma_not_mem_intChars code) ',' (by decide) _
  have h2 : (intChars code ++ ',' :: '"' :: (l ++ ['"'])).splitOn '"' =
      (intChars code ++ [',']) :: l :: [] :: [] := by
    have e : intChars code ++ ',' :: '"' :: (l ++ ['"']) =
        (intChars code ++ [',']) ++ '"' :: (l ++ '"' :: []) := by
      simp
    rw [e, List.splitOn,
      List.splitOnP_first _ _ (quoteFree_intChars_comma code) '"' (by decide) _,
      List.splitOnP_first _ _ hql '"' (by decide) [], List.splitOnP_nil]
  rw [parseErrLine, hdata, h1]
  simp only [List.headD_cons, parseInt?_intChars, h2, List.get?]

theorem dictInsert_append {d : List (Int × String)} {k : Int} {v : String}
    (hk : ∀ p ∈ d, p.1 ≠ k) : dictInsert d k v = d ++ [(k, v)] := by
  have hany : ¬(d.any (fun p => p.1 == k) = true) := by
    rw [List.any_eq_true]
    rintro ⟨p, hp, hbeq⟩
    exact hk p hp (eq_of_beq hbeq)
  rw [dictInsert, if_neg hany]

theorem checkErrorsLoop_spec (fuel : Nat) :
    ∀ (errs dict : List (Int × String)),
      (∀ e ∈ errs, e.1 ≠ 0) →
      (∀ e ∈ errs, '"' ∉ e.2.data) →
      ((dict.map Prod.fst) ++ (errs.map Prod.fst)).Nodup →
      checkErrorsLoop fuel dict (mkErrQueue errs) =
        (List.replicate (min (errs.length + 1) fuel) (Action.ask ("SYSTem:ERRor?")),
          some (dict ++ errs.take fuel)) := by
  induction fuel with
  | zero =>
    intro errs dict _ _ _
    simp [checkErrorsLoop]
  | succ f ih =>
    intro errs dict hnz hq hnodup
    cases errs with
    | nil =>
      have hz : parseErrLine (("0,\"No error\"")) =
          some ((0 : Int), ("No error" : String)) := by decide
      simp [mkErrQueue, checkErrorsLoop, hz, Nat.succ_min_succ]
    | cons e rest =>
      have hp : parseErrLine (fmtErrReply e.1 e.2) = some (e.1, e.2) :=
        parseErrLine_fmt e.1 e.2 (hq e (List.mem_cons_self e rest))
      have hne : e.1 ≠ 0 := hnz e (List.mem_cons_self e rest)
      have hkeys : ∀ p ∈ dict, p.1 ≠ e.1 := by
        intro p hp2 heq
        have hmem : e.1 ∈ dict.map Prod.fst := heq ▸ List.mem_map_of_mem Prod.fst hp2
        have hnd : (dict.map Prod.fst ++ (e.1 :: rest.map Prod.fst)).Nodup := by
          simpa using hnodup
        rcases List.nodup_append.mp hnd with ⟨_, _, hdisj⟩
        exact hdisj hmem (by simp)
      have hstep : dictInsert dict e.1 e.2 = dict ++ [e] := by
        rw [dictInsert_append hkeys]
      have hrec := ih rest (dict ++ [e])
        (fun x hx => hnz x (List.mem_cons_of_mem e hx))
        (fun x hx => hq x (List.mem_cons_of_mem e hx))
        (by
          have hnd : (dict.map Prod.fst ++ (e.1 :: rest.map Prod.fst)).Nodup := by
            simpa using hnodup
          rw [List.append_cons] at hnd
          simpa using hnd)
      simp only [mkErrQueue, List.map_cons, List.cons_append, checkErrorsLoop,
        List.headD_cons, List.tail_cons, hp, if_neg hne, hstep]
      rw [show (rest.map (fun e => fmtErrReply e.1 e.2) ++ [("0,\"No error\"")]) =
        mkErrQueue rest from rfl, hrec]
      simp [Nat.succ_min_succ, List.replicate_succ, List.append_assoc]

/-- C2 counterexample: against a queue of N = 10 distinct non-zero errors
followed by `0,"No error"`, the `Agilent34970A.check_errors` loop issues 11
`SYSTem:ERRor?` queries — more than the claimed per-model cap of
`min (N + 1, 10) = 10` for the 34970A: the code loops `range(12)` for both
models. -/
theorem check_errors_cap_counterexample :
    (agilentCheckErrors (mkErrQueue
        [((-101 : Int), ("e1" : String)), (-102, ("e2")), (-103, ("e3")),
          (-104, ("e4")), (-105, ("e5")), (-106, ("e6")), (-107, ("e7")),
          (-108, ("e8")), (-109, ("e9")), (-110, ("e10"))])).1.length = 11
      ∧ ¬(11 ≤ min (10 + 1) 10) :=
  ⟨by decide, by decide⟩

/-- C2 amended: for a queue of N non-zero-code, distinct-code, quote-free
replies followed by `0,"No error"`, `check_errors` (both drivers run the
identical code with a single loop bound of 12, not a per-model 10/12 cap)
issues exactly `min (N + 1, 12)` `SYSTem:ERRor?` queries, stops at the first
zero code, and returns the first `min (N, 12)` (code → message) pairs —
exactly N entries whenever N ≤ 12. -/
theorem check_errors_amended (errs : List (Int × String))
    (hnz : ∀ e ∈ errs, e.1 ≠ 0)
    (hq : ∀ e ∈ errs, '"' ∉ e.2.data)
    (hnodup : (errs.map Prod.fst).Nodup) :
    (agilentCheckErrors (mkErrQueue errs)).1.length = min (errs.length + 1) 12
      ∧ (agilentCheckErrors (mkErrQueue errs)).2 = some (errs.take 12)
      ∧ (∀ a ∈ (agilentCheckErrors (mkErrQueue errs)).1, a = Action.ask ("SYSTem:ERRor?"))
      ∧ keithleyCheckErrors (mkErrQueue errs) = agilentCheckErrors (mkErrQueue errs) := by
  have h := checkErrorsLoop_spec 12 errs [] hnz hq (by simpa using hnodup)
  have hag : agilentCheckErrors (mkErrQueue errs) =
      (List.replicate (min (errs.length + 1) 12) (Action.ask ("SYSTem:ERRor?")),
        some (errs.take 12)) := by
    rw [agilentCheckErrors, checkErrors, h]
    simp
  refine ⟨?_, ?_, ?_, rfl⟩
  · rw [hag]; simp
  · rw [hag]
  · rw [hag]
    intro a ha
    exact List.eq_of_mem_replicate ha

/-- C2 witness: one error `-113,"Undefined header"` followed by the no-error
reply yields 2 queries and exactly that one entry. -/
theorem check_errors_amended_witness :
    (agilentCheckErrors (mkErrQueue [((-113 : Int), ("Undefined header" : String))])).1.length =
        min ([((-113 : Int), ("Undefined header" : String))].length + 1) 12
      ∧ (agilentCheckErrors
            (mkErrQueue [((-113 : Int), ("Undefined header" : String))])).2 =
          some ([((-113 : Int), ("Undefined header" : String))].take 12)
      ∧ (∀ a ∈ (agilentCheckErrors
            (mkErrQueue [((-113 : Int), ("Undefined header" : String))])).1,
          a = Action.ask ("SYSTem:ERRor?"))
      ∧ keithleyCheckErrors (mkErrQueue [((-113 : Int), ("Undefined header" : String))]) =
          agilentCheckErrors (mkErrQueue [((-113 : Int), ("Undefined header" : String))]) :=
  check_errors_amended [((-113 : Int), ("Undefined header" : String))]
    (by decide) (by decide) (by decide)

end PyMeasure
